import Mathlib

set_option maxRecDepth 20000

/-!
Shallow embedding of the helm-resource deployment-state engine
(src/helm-api/src/lib.rs) in Lean 4.

The external collaborators (serde_json values, the md5 crate's streaming
context, the mktemp crate's scoped temporary files, curl transfers and
spawned processes) are modelled explicitly: JSON values as an inductive
type, the MD5 algorithm as an executable Lean function over byte lists,
process/file-system effects as oracle parameters passed to the embedded
functions, and mktemp's drop/release discipline as an explicit trace of
the values artifact's lifecycle.
-/

/-- serde_json::Value, as stored in a parsed API response.  Objects are
modelled as association lists (serde maps have unique keys; lookup takes
the first binding).  Numbers are collapsed to `Int`: no operation used by
the embedded code inspects a numeric payload. -/
inductive Json where
  | null : Json
  | bool (b : Bool) : Json
  | num (n : Int) : Json
  | str (s : String) : Json
  | arr (elems : List Json) : Json
  | obj (fields : List (String × Json)) : Json

/-- The type of a parsed JSON object, serde_json::Map<String, Value>. -/
abbrev JObj : Type := List (String × Json)

/-- serde_json::Map::get. -/
def jget (o : JObj) (k : String) : Option Json :=
  (o.find? (fun p => p.1 == k)).map (fun p => p.2)

/-- Value::as_str. -/
def Json.as_str : Json → Option String
  | .str s => some s
  | _ => none

/-- Value::as_array. -/
def Json.as_array : Json → Option (List Json)
  | .arr elems => some elems
  | _ => none

/-- Value::as_object. -/
def Json.as_object : Json → Option JObj
  | .obj fields => some fields
  | _ => none

/-- The Chart value type (lib.rs lines 44-50).  `overrides` is a
serde HashMap<String, Value>, modelled as an association list. -/
structure Chart where
  release : String
  name : String
  version : Option String
  overrides : Option (List (String × Json))

/-- Split a character list at the LAST occurrence of `sep`: returns
(everything before that occurrence, everything after it), or `none` when
`sep` does not occur.  This is the behaviour of the code's
`rsplitn(2, sep)` followed by `next()` (the part after the last
separator) and `last()` (the part before it). -/
def lastSplit (sep : Char) : List Char → Option (List Char × List Char)
  | [] => none
  | c :: rest =>
    match lastSplit sep rest with
    | some (pre, post) => some (c :: pre, post)
    | none => if c == sep then some ([], rest) else none

/-- The chart-label split used in Helm::list (lib.rs lines 223-237):
`labels.chart` is split on its last hyphen into (name, version);
a label with no hyphen yields `none`. -/
def splitChart (c : String) : Option (String × String) :=
  (lastSplit '-' c.data).map (fun p => (String.mk p.1, String.mk p.2))

/-- Chart reconstruction from a surviving item's labels object
(lib.rs lines 219-239): `release` = labels.release verbatim; name and
version come from `splitChart` on labels.chart; an item missing either
label (or holding a non-string there), or whose chart label has no
hyphen, yields `none`. -/
def chartOfLabels (labels : JObj) : Option Chart :=
  ((jget labels "release").bind Json.as_str).bind (fun release =>
    ((jget labels "chart").bind Json.as_str).bind (fun c =>
      (splitChart c).map (fun p =>
        { release := release
          name := p.1
          version := some p.2
          overrides := none })))

/-- The namespace filter on an item's metadata object
(lib.rs lines 203-209). -/
def namespaceMatches (nspace : String) (metadata : JObj) : Bool :=
  (((jget metadata "namespace").bind Json.as_str).map
    (fun n => n == nspace)).getD false

/-- The heritage filter on an item's labels object
(lib.rs lines 212-218). -/
def heritageMatches (labels : JObj) : Bool :=
  (((jget labels "heritage").bind Json.as_str).map
    (fun n => n == "Tiller")).getD false

/-- The iterator chain of Helm::list (lib.rs lines 199-241), stage by
stage over the `items` array: as_object, get metadata, as_object,
namespace filter, get labels, as_object, heritage filter, chart
reconstruction. -/
def listItems (nspace : String) (items : List Json) : List Chart :=
  ((((((items.filterMap Json.as_object).filterMap
    (fun o => jget o "metadata")).filterMap Json.as_object).filter
    (namespaceMatches nspace)).filterMap
    (fun o => jget o "labels")).filterMap Json.as_object).filter
    heritageMatches
  |>.filterMap chartOfLabels

/-- The pure inventory-reconstruction core of Helm::list
(lib.rs lines 195-242), as a function of the configured namespace and
the parsed API response object: read `items` defensively (absent or
non-array means the empty inventory), then run the code's iterator
chain over the items. -/
def Helm.list (nspace : String) (deployments : JObj) : List Chart :=
  match (jget deployments "items").bind Json.as_array with
  | none => []
  | some items => listItems nspace items

/-- The metadata object of an item, when the item is an object holding
an object under "metadata" (the first three stages of the chain). -/
def itemMetadata (item : Json) : Option JObj :=
  (item.as_object.bind (fun o => jget o "metadata")).bind Json.as_object

/-- The labels object of an item, when present (the chain's stages up
to the heritage filter). -/
def itemLabels (item : Json) : Option JObj :=
  ((itemMetadata item).bind (fun metadata => jget metadata "labels")).bind
    Json.as_object

/-- A response object holding exactly one inventory item. -/
def singleItemPayload (item : Json) : JObj := [("items", Json.arr [item])]

/-- An inventory item in namespace `nspace` carrying the given labels
object. -/
def itemWithLabels (nspace : String) (labels : JObj) : Json :=
  Json.obj [("metadata", Json.obj
    [("namespace", Json.str nspace), ("labels", Json.obj labels)])]

/-! ### The MD5 algorithm (the md5 crate), over byte lists -/

/-- The word modulus of MD5, 2^32. -/
def md5M : Nat := 4294967296

/-- Left-rotation of a 32-bit word. -/
def rotl32 (x n : Nat) : Nat := ((x <<< n) % md5M) ||| (x >>> (32 - n))

/-- Round function F. -/
def mdF (b c d : Nat) : Nat := (b &&& c) ||| ((b ^^^ 4294967295) &&& d)

/-- Round function G. -/
def mdG (b c d : Nat) : Nat := (d &&& b) ||| ((d ^^^ 4294967295) &&& c)

/-- Round function H. -/
def mdH (b c d : Nat) : Nat := b ^^^ c ^^^ d

/-- Round function I. -/
def mdI (b c d : Nat) : Nat := c ^^^ (b ||| (d ^^^ 4294967295))

/-- The 64 sine-derived constants. -/
def mdK : List Nat :=
  [0xd76aa478, 0xe8c7b756, 0x242070db, 0xc1bdceee,
   0xf57c0faf, 0x4787c62a, 0xa8304613, 0xfd469501,
   0x698098d8, 0x8b44f7af, 0xffff5bb1, 0x895cd7be,
   0x6b901122, 0xfd987193, 0xa679438e, 0x49b40821,
   0xf61e2562, 0xc040b340, 0x265e5a51, 0xe9b6c7aa,
   0xd62f105d, 0x02441453, 0xd8a1e681, 0xe7d3fbc8,
   0x21e1cde6, 0xc33707d6, 0xf4d50d87, 0x455a14ed,
   0xa9e3e905, 0xfcefa3f8, 0x676f02d9, 0x8d2a4c8a,
   0xfffa3942, 0x8771f681, 0x6d9d6122, 0xfde5380c,
   0xa4beea44, 0x4bdecfa9, 0xf6bb4b60, 0xbebfbc70,
   0x289b7ec6, 0xeaa127fa, 0xd4ef3085, 0x04881d05,
   0xd9d4d039, 0xe6db99e5, 0x1fa27cf8, 0xc4ac5665,
   0xf4292244, 0x432aff97, 0xab9423a7, 0xfc93a039,
   0x655b59c3, 0x8f0ccc92, 0xffeff47d, 0x85845dd1,
   0x6fa87e4f, 0xfe2ce6e0, 0xa3014314, 0x4e0811a1,
   0xf7537e82, 0xbd3af235, 0x2ad7d2bb, 0xeb86d391]

/-- The 64 per-round shift amounts. -/
def mdS : List Nat :=
  [7, 12, 17, 22, 7, 12, 17, 22, 7, 12, 17, 22, 7, 12, 17, 22,
   5, 9, 14, 20, 5, 9, 14, 20, 5, 9, 14, 20, 5, 9, 14, 20,
   4, 11, 16, 23, 4, 11, 16, 23, 4, 11, 16, 23, 4, 11, 16, 23,
   6, 10, 15, 21, 6, 10, 15, 21, 6, 10, 15, 21, 6, 10, 15, 21]

/-- The four 32-bit chaining registers. -/
structure MD5State where
  a : Nat
  b : Nat
  c : Nat
  d : Nat

/-- Initial chaining state. -/
def md5Init : MD5State :=
  { a := 0x67452301, b := 0xefcdab89, c := 0x98badcfe, d := 0x10325476 }

/-- One of the 64 operations on a block `m` of 16 words. -/
def md5Step (m : List Nat) (st : MD5State) (i : Nat) : MD5State :=
  let f :=
    if i < 16 then mdF st.b st.c st.d
    else if i < 32 then mdG st.b st.c st.d
    else if i < 48 then mdH st.b st.c st.d
    else mdI st.b st.c st.d
  let g :=
    if i < 16 then i
    else if i < 32 then (5 * i + 1) % 16
    else if i < 48 then (3 * i + 5) % 16
    else (7 * i) % 16
  let x := (f + st.a + mdK.getD i 0 + m.getD g 0) % md5M
  { a := st.d, b := (st.b + rotl32 x (mdS.getD i 0)) % md5M, c := st.b, d := st.c }

/-- Process one 16-word block and add the result into the chaining state. -/
def md5Block (st : MD5State) (m : List Nat) : MD5State :=
  let r := (List.range 64).foldl (md5Step m) st
  { a := (st.a + r.a) % md5M, b := (st.b + r.b) % md5M,
    c := (st.c + r.c) % md5M, d := (st.d + r.d) % md5M }

/-- A 64-bit number as 8 little-endian bytes. -/
def le64 (n : Nat) : List Nat :=
  [n % 256, n / 256 % 256, n / 65536 % 256, n / 16777216 % 256,
   n / 4294967296 % 256, n / 1099511627776 % 256,
   n / 281474976710656 % 256, n / 72057594037927936 % 256]

/-- MD5 padding: a 0x80 byte, zeros to 56 mod 64, then the bit length
as a 64-bit little-endian number. -/
def md5Pad (msg : List Nat) : List Nat :=
  msg ++ [128] ++ List.replicate ((119 - msg.length % 64) % 64) 0
      ++ le64 (msg.length * 8 % 18446744073709551616)

/-- Four little-endian bytes as one 32-bit word. -/
def leWord (b0 b1 b2 b3 : Nat) : Nat :=
  b0 + 256 * b1 + 65536 * b2 + 16777216 * b3

/-- Group a byte list into little-endian 32-bit words. -/
def toWords : List Nat → List Nat
  | b0 :: b1 :: b2 :: b3 :: rest => leWord b0 b1 b2 b3 :: toWords rest
  | _ => []

/-- Group a word list into blocks of 16. -/
def toBlocks : List Nat → List (List Nat)
  | w0 :: w1 :: w2 :: w3 :: w4 :: w5 :: w6 :: w7 ::
    w8 :: w9 :: w10 :: w11 :: w12 :: w13 :: w14 :: w15 :: rest =>
    [w0, w1, w2, w3, w4, w5, w6, w7, w8, w9, w10, w11, w12, w13, w14, w15]
      :: toBlocks rest
  | _ => []

/-- A 32-bit word as 4 little-endian bytes. -/
def wordBytes (x : Nat) : List Nat :=
  [x % 256, x / 256 % 256, x / 65536 % 256, x / 16777216 % 256]

/-- The 16 digest bytes of a byte-list message. -/
def md5Bytes (msg : List Nat) : List Nat :=
  let st := (toBlocks (toWords (md5Pad msg))).foldl md5Block md5Init
  wordBytes st.a ++ wordBytes st.b ++ wordBytes st.c ++ wordBytes st.d

/-- Lowercase hex digit. -/
def hexChar (n : Nat) : Char :=
  if n < 10 then Char.ofNat (48 + n) else Char.ofNat (87 + n)

/-- The Rust LowerHex rendering of an md5::Digest: each of the 16 bytes
as two lowercase hex digits. -/
def md5hex (msg : List Nat) : String :=
  String.mk ((md5Bytes msg).flatMap (fun b => [hexChar (b / 16), hexChar (b % 16)]))

/-- The UTF-8 bytes of a string: what `md5::Context::consume` reads from
a Rust `String`.  (Identical to `String.toUTF8`, kept as a list.) -/
def strBytes (s : String) : List Nat :=
  (s.data.flatMap String.utf8EncodeChar).map UInt8.toNat

/-- The loop body of Helm::digest (lib.rs lines 247-253): the md5
context has consumed `hash` so far; consume the chart's `release`, then
`name`, then `version` when present. -/
def consumeChart (hash : List Nat) (chart : Chart) : List Nat :=
  match chart.version with
  | some version =>
    hash ++ strBytes chart.release ++ strBytes chart.name ++ strBytes version
  | none => hash ++ strBytes chart.release ++ strBytes chart.name

/-- The byte stream fed to the md5 context by Helm::digest
(lib.rs lines 246-253), starting from the fresh context. -/
def digestBytes (charts : List Chart) : List Nat :=
  charts.foldl consumeChart []

/-- Helm::digest (lib.rs lines 245-255) as a function of the listed
inventory: the hex-encoded MD5 of the consumed byte stream. -/
def Helm.digest (charts : List Chart) : String :=
  md5hex (digestBytes charts)

/-! ### Effectful operations, with external effects as oracle parameters -/

/-- Modelled from the spec: the repository's error enum (its `error`
module is declared in lib.rs line 12 but its source is not under src/).
Spec section 7 names the kinds ConfigInvariantViolation,
CommandExecutionFailure(command_text), NetworkOrApiFailure,
UrlConstructionFailure and SerializationFailure; lib.rs itself
constructs `HelmError::NoCaData` (the config-invariant violation,
line 76), `HelmError::CmdFailed(cmd)` (command failure, line 144) and
`HelmError::UrlParse` (line 190), and converts io, curl, template-render
and yaml errors via From impls. -/
inductive HelmError where
  | NoCaData : HelmError
  | CmdFailed (cmd : String) : HelmError
  | UrlParse : HelmError
  | Io : HelmError
  | Render : HelmError
  | Curl : HelmError
  | Yaml : HelmError
deriving DecidableEq

/-- What std::process::Command::output returns when the process could be
spawned: its exit status and captured output streams (stdout after the
lossy UTF-8 conversion the code applies). -/
structure ProcOutput where
  status_success : Bool
  stdout : String
  stderr : String

/-- Rust char::is_whitespace: the Unicode White_Space property
(U+0009..U+000D, U+0020, U+0085, U+00A0, U+1680, U+2000..U+200A,
U+2028, U+2029, U+202F, U+205F, U+3000). -/
def rustIsWhitespace (c : Char) : Bool :=
  (9 ≤ c.toNat && c.toNat ≤ 13) || c.toNat == 32 || c.toNat == 133 ||
  c.toNat == 160 || c.toNat == 5760 ||
  (8192 ≤ c.toNat && c.toNat ≤ 8202) ||
  c.toNat == 8232 || c.toNat == 8233 || c.toNat == 8239 ||
  c.toNat == 8287 || c.toNat == 12288

/-- Rust str::trim: drop Unicode White_Space from both ends. -/
def strTrim (s : String) : String :=
  String.mk
    (((s.data.dropWhile rustIsWhitespace).reverse.dropWhile
      rustIsWhitespace).reverse)

/-- Helm::run (lib.rs lines 128-148).  Oracles: `log` for each
`io::stderr().write(..)` (applied to the written text; the command echo
at line 130, then the stdout and stderr mirrors at lines 139-140),
`flush` for `io::stderr().flush()` (line 141), `exec` for
`Command::output` (`.error` is a spawn/io failure, `.ok` a completed
process).  Each write is try!-wrapped in the source, so a failing
diagnostic write aborts with an io error before the status check.  On
non-zero exit the result is `CmdFailed` carrying the exact command
text; on success the trimmed stdout. -/
def Helm.run (cmd : String) (log : String → Except Unit Unit)
    (flush : Except Unit Unit) (exec : String → Except Unit ProcOutput) :
    Except HelmError String :=
  match log ("Running `" ++ cmd ++ "`.\n") with
  | .error _ => .error .Io
  | .ok _ =>
    match exec cmd with
    | .error _ => .error .Io
    | .ok output =>
      match log output.stdout with
      | .error _ => .error .Io
      | .ok _ =>
        match log output.stderr with
        | .error _ => .error .Io
        | .ok _ =>
          match flush with
          | .error _ => .error .Io
          | .ok _ =>
            if output.status_success then .ok (strTrim output.stdout)
            else .error (.CmdFailed cmd)

/-- The Config struct (lib.rs lines 63-70).  The Rust field `namespace`
is a Lean keyword and is rendered `nspace`. -/
structure Config where
  url : String
  username : String
  password : String
  nspace : String
  skip_tls_verify : Option Bool
  ca_data : Option String

/-- The Helm connection handle (lib.rs lines 54-61): namespace, server
and credentials plus the two scoped artifacts (the client-config file,
and the trust-anchor file whose presence is recorded as a Bool). -/
structure Helm where
  nspace : String
  server : String
  username : String
  password : String
  kube_ca_cert : Bool

/-- Helm::configure (lib.rs lines 73-126).  Oracles: `io1` for the
kube-config temp-file creation (Temp::new_file and File::create),
`render` for the rustache template render plus flush, `io2` for the
trust-anchor file creation/write (only consulted when ca_data is
present), `log`/`flush` for the stderr diagnostics of Helm::run, and
`exec` for the processes it spawns.  The invariant check comes first:
absent ca_data together with skip_tls_verify not explicitly true is
`NoCaData`.  Then the artifacts are written, the connection value is
built, and `helm init --client-only 1>&2` and `helm repo update` are
run; either failing aborts bootstrap. -/
def Helm.configure (config : Config) (io1 render io2 : Except Unit Unit)
    (log : String → Except Unit Unit) (flush : Except Unit Unit)
    (exec : String → Except Unit ProcOutput) : Except HelmError Helm :=
  if config.ca_data.isNone && !(config.skip_tls_verify.getD false) then
    .error .NoCaData
  else
    match io1 with
    | .error _ => .error .Io
    | .ok _ =>
      match render with
      | .error _ => .error .Render
      | .ok _ =>
        match (match config.ca_data with
               | some _ => io2
               | none => .ok ()) with
        | .error _ => .error .Io
        | .ok _ =>
          match Helm.run "helm init --client-only 1>&2" log flush exec with
          | .error e => .error e
          | .ok _ =>
            match Helm.run "helm repo update" log flush exec with
            | .error e => .error e
            | .ok _ =>
              .ok { nspace := config.nspace, server := config.url,
                    username := config.username, password := config.password,
                    kube_ca_cert := config.ca_data.isSome }

/-- The observable outcome of Helm::kube_api: a parsed value, a returned
error, or a process abort (the `Err(_)` arm of the serde parse in
lib.rs line 177 expands to a panicking placeholder macro, which does not
return). -/
inductive ApiOutcome (α : Type) where
  | ok (v : α) : ApiOutcome α
  | err (e : HelmError) : ApiOutcome α
  | panicked : ApiOutcome α

/-- Helm::kube_api at D = Map<String, Value> (lib.rs lines 150-179).
`transfer` is the oracle for the curl transfer (handle setup and
perform; `.error` is any curl failure, `.ok` the response body bytes);
`parse` is the oracle for `serde_json::from_str` on the lossy-trimmed
body.  A transfer error is returned; a parse failure hits the
placeholder arm and panics. -/
def Helm.kube_api (transfer : Except Unit (List Nat))
    (parse : List Nat → Option JObj) : ApiOutcome JObj :=
  match transfer with
  | .error _ => .err .Curl
  | .ok buf =>
    match parse buf with
    | some v => .ok v
    | none => .panicked

/-- The values-artifact lifecycle trace of one Helm::upgrade call.
mktemp discipline (the mktemp crate): a `Temp` removes its file when it
is dropped, and `Temp::release` relinquishes that ownership so the
file is NOT removed on drop.  `tempCreated`: the temp values file was
created; `tempRemoved`: it was removed by a drop on function exit;
`releaseCalled`: `Temp::release` was invoked on it. -/
structure UpgradeTrace where
  result : Except HelmError Unit
  tempCreated : Bool
  tempRemoved : Bool
  releaseCalled : Bool

/-- Helm::upgrade (lib.rs lines 257-298).  Oracles: `mkTemp` for
Temp::new_file (yields the artifact path), `createFile` for
File::create on that path, `ser` for the serde_yaml serialization of
the overrides (lib.rs writes with to_writer at line 276 and renders
the same mapping again with to_string at line 281; one oracle stands
for both, yielding the rendered text), `fileFlush` for the values
file's flush (line 277), `log`/`flush` for the stderr diagnostics (the
"Using values" echo at lines 280-281 and the writes inside Helm::run),
and `exec` for the spawned process.  The command is assembled exactly
as in the code; every early error return after the Temp exists drops
it (removing the file), and on command success `Temp::release` is
called (lib.rs line 295) so the file is kept. -/
def Helm.upgrade (nspace : String) (chart : Chart)
    (mkTemp : Except Unit String) (createFile : Except Unit Unit)
    (fileFlush : Except Unit Unit)
    (ser : List (String × Json) → Except Unit String)
    (log : String → Except Unit Unit) (flush : Except Unit Unit)
    (exec : String → Except Unit ProcOutput) : UpgradeTrace :=
  let cmd1 := ["helm upgrade -i --namespace " ++ nspace] ++
    (match chart.version with
     | some version => ["--version " ++ version]
     | none => [])
  match chart.overrides with
  | none =>
    let cmd := cmd1 ++ [chart.release ++ " stable/" ++ chart.name]
    match Helm.run (String.intercalate " " cmd) log flush exec with
    | .error e =>
      { result := .error e, tempCreated := false,
        tempRemoved := false, releaseCalled := false }
    | .ok _ =>
      { result := .ok (), tempCreated := false,
        tempRemoved := false, releaseCalled := false }
  | some overrides =>
    match mkTemp with
    | .error _ =>
      { result := .error .Io, tempCreated := false,
        tempRemoved := false, releaseCalled := false }
    | .ok path =>
      let cmd2 := cmd1 ++ ["--values " ++ path]
      match createFile with
      | .error _ =>
        { result := .error .Io, tempCreated := true,
          tempRemoved := true, releaseCalled := false }
      | .ok _ =>
        match ser overrides with
        | .error _ =>
          { result := .error .Yaml, tempCreated := true,
            tempRemoved := true, releaseCalled := false }
        | .ok yaml =>
          match fileFlush with
          | .error _ =>
            { result := .error .Io, tempCreated := true,
              tempRemoved := true, releaseCalled := false }
          | .ok _ =>
            match log ("Using values:\n" ++ yaml ++ "\n") with
            | .error _ =>
              { result := .error .Io, tempCreated := true,
                tempRemoved := true, releaseCalled := false }
            | .ok _ =>
              let cmd := cmd2 ++ [chart.release ++ " stable/" ++ chart.name]
              match Helm.run (String.intercalate " " cmd) log flush exec with
              | .error e =>
                { result := .error e, tempCreated := true,
                  tempRemoved := true, releaseCalled := false }
              | .ok _ =>
                { result := .ok (), tempCreated := true,
                  tempRemoved := false, releaseCalled := true }

/-! ### Spec-side definitions, for the refinement-style claims -/

/-- Written from the spec's words for claim C1: the separator-free
concatenation, in inventory order, of each Chart's release, then name,
then version (version appended only when present). -/
def specConcat : List Chart → String
  | [] => ""
  | chart :: rest =>
    chart.release ++ chart.name ++
      (match chart.version with
       | some version => version
       | none => "") ++ specConcat rest

/-! ### Helper lemmas -/

theorem strBytes_append (a b : String) :
    strBytes (a ++ b) = strBytes a ++ strBytes b := by
  simp [strBytes, String.data_append]

theorem strBytes_empty : strBytes "" = [] := rfl

theorem consumeChart_eq (hash : List Nat) (chart : Chart) :
    consumeChart hash chart = hash ++ consumeChart [] chart := by
  cases h : chart.version <;> simp [consumeChart, h]

theorem foldl_consumeChart (charts : List Chart) (acc : List Nat) :
    charts.foldl consumeChart acc = acc ++ digestBytes charts := by
  induction charts generalizing acc with
  | nil => simp [digestBytes]
  | cons chart rest ih =>
    show rest.foldl consumeChart (consumeChart acc chart) = _
    rw [ih, consumeChart_eq]
    show acc ++ consumeChart [] chart ++ digestBytes rest = _
    rw [List.append_assoc]
    congr 1
    show _ = (chart :: rest).foldl consumeChart []
    show _ = rest.foldl consumeChart (consumeChart [] chart)
    rw [ih]

theorem digestBytes_eq_specConcat (charts : List Chart) :
    digestBytes charts = strBytes (specConcat charts) := by
  induction charts with
  | nil => rfl
  | cons chart rest ih =>
    show (chart :: rest).foldl consumeChart [] = _
    show rest.foldl consumeChart (consumeChart [] chart) = _
    rw [foldl_consumeChart, ih]
    cases h : chart.version with
    | none =>
      simp [specConcat, h, consumeChart, strBytes_append, strBytes_empty]
    | some version =>
      simp [specConcat, h, consumeChart, strBytes_append]

/-! ### C1 and C8: the digest engine -/

/-- C1: For every ordered inventory of Charts, Helm::digest equals the
hex-encoded MD5 of the separator-free concatenation, in inventory
order, of each Chart's release, then name, then version (version
appended only when present); consequently computing the digest twice
from the same same-order inventory yields the identical string. -/
theorem digest_is_md5_of_concat (charts : List Chart) :
    Helm.digest charts = md5hex (strBytes (specConcat charts)) ∧
    (∀ charts2 : List Chart, charts2 = charts →
      Helm.digest charts2 = Helm.digest charts) := by
  constructor
  · show md5hex (digestBytes charts) = _
    rw [digestBytes_eq_specConcat]
  · intro charts2 h
    rw [h]

theorem digest_is_md5_of_concat_witness :
    Helm.digest [] = md5hex (strBytes (specConcat [])) ∧
    Helm.digest [] = Helm.digest [] :=
  ⟨(digest_is_md5_of_concat []).1, (digest_is_md5_of_concat []).2 [] rfl⟩

/-- C8: the digest fold admits collisions: two distinct inventories
(here differing in where one release string ends and the next chart
name begins) share a digest, and two permutations of the same charts
have different digests. -/
theorem digest_admits_collisions :
    (∃ l1 l2 : List Chart, l1 ≠ l2 ∧ Helm.digest l1 = Helm.digest l2) ∧
    (∃ l3 l4 : List Chart, l3.Perm l4 ∧ Helm.digest l3 ≠ Helm.digest l4) := by
  constructor
  · refine ⟨[⟨"ab", "c", none, none⟩], [⟨"a", "bc", none, none⟩], ?_, ?_⟩
    · intro h
      have hrel := congrArg
        (fun l => match l with
                  | chart :: _ => Chart.release chart
                  | [] => "") h
      exact absurd hrel (by decide)
    · decide
  · refine ⟨[⟨"a", "b", none, none⟩, ⟨"c", "d", none, none⟩],
      [⟨"c", "d", none, none⟩, ⟨"a", "b", none, none⟩], ?_, ?_⟩
    · exact List.Perm.swap _ _ _
    · decide

/-! ### C2 and C7: bootstrap invariant and the command executor -/

theorem run_ne_NoCaData (cmd : String) (log : String → Except Unit Unit)
    (flush : Except Unit Unit) (exec : String → Except Unit ProcOutput) :
    Helm.run cmd log flush exec ≠ Except.error HelmError.NoCaData := by
  unfold Helm.run
  split
  · simp
  · split
    · simp
    · split
      · simp
      · split
        · simp
        · split
          · simp
          · split <;> simp

theorem invariant_cond_iff (config : Config) :
    ((config.ca_data.isNone && !(config.skip_tls_verify.getD false)) = true) ↔
      (config.ca_data = none ∧ config.skip_tls_verify ≠ some true) := by
  cases hca : config.ca_data with
  | none =>
    cases hskip : config.skip_tls_verify with
    | none => simp [hca, hskip]
    | some b => cases b <;> simp [hca, hskip]
  | some d => simp [hca]

theorem configure_post_ne_NoCaData (config : Config)
    (io1 render io2 : Except Unit Unit) (log : String → Except Unit Unit)
    (flush : Except Unit Unit) (exec : String → Except Unit ProcOutput)
    (hcond : ¬ (config.ca_data.isNone && !(config.skip_tls_verify.getD false)) = true) :
    Helm.configure config io1 render io2 log flush exec ≠
      Except.error HelmError.NoCaData := by
  unfold Helm.configure
  rw [if_neg hcond]
  cases io1 with
  | error e => simp
  | ok u1 =>
    cases render with
    | error e => simp
    | ok u2 =>
      cases hca : config.ca_data with
      | some d =>
        cases io2 with
        | error e => simp
        | ok u3 =>
          cases h1 : Helm.run "helm init --client-only 1>&2" log flush exec with
          | error e =>
            dsimp only
            intro h
            injection h with he
            rw [he] at h1
            exact run_ne_NoCaData _ log flush exec h1
          | ok s1 =>
            cases h2 : Helm.run "helm repo update" log flush exec with
            | error e =>
              dsimp only
              intro h
              injection h with he
              rw [he] at h2
              exact run_ne_NoCaData _ log flush exec h2
            | ok s2 => simp
      | none =>
        cases h1 : Helm.run "helm init --client-only 1>&2" log flush exec with
        | error e =>
          dsimp only
          intro h
          injection h with he
          rw [he] at h1
          exact run_ne_NoCaData _ log flush exec h1
        | ok s1 =>
          cases h2 : Helm.run "helm repo update" log flush exec with
          | error e =>
            dsimp only
            intro h
            injection h with he
            rw [he] at h2
            exact run_ne_NoCaData _ log flush exec h2
          | ok s2 => simp

/-- C2: Helm::configure fails with the config-invariant violation
(`NoCaData`) exactly when ca_data is absent and skip_tls_verify is not
explicitly true; for any config with ca_data set the invariant check
passes and no `NoCaData` error is ever produced, whatever the file
system, template renderer, stderr diagnostics and spawned commands
do. -/
theorem configure_invariant (config : Config) (io1 render io2 : Except Unit Unit)
    (log : String → Except Unit Unit) (flush : Except Unit Unit)
    (exec : String → Except Unit ProcOutput) :
    (Helm.configure config io1 render io2 log flush exec =
        Except.error HelmError.NoCaData ↔
      (config.ca_data = none ∧ config.skip_tls_verify ≠ some true)) ∧
    (∀ d : String, config.ca_data = some d →
      Helm.configure config io1 render io2 log flush exec ≠
        Except.error HelmError.NoCaData) := by
  by_cases hcond : (config.ca_data.isNone && !(config.skip_tls_verify.getD false)) = true
  · have hres : Helm.configure config io1 render io2 log flush exec =
        Except.error HelmError.NoCaData := by
      unfold Helm.configure
      rw [if_pos hcond]
    constructor
    · rw [hres]
      simp [(invariant_cond_iff config).mp hcond]
    · intro d hd
      rw [hd] at hcond
      simp [Option.isNone] at hcond
  · have hne := configure_post_ne_NoCaData config io1 render io2 log flush exec hcond
    constructor
    · constructor
      · intro h
        exact absurd h hne
      · intro hab
        exact absurd ((invariant_cond_iff config).mpr hab) hcond
    · intro d hd
      exact hne

theorem configure_invariant_witness :
    Helm.configure
      { url := "https://cluster.example", username := "u", password := "p",
        nspace := "ns", skip_tls_verify := none, ca_data := some "CA" }
      (Except.ok ()) (Except.ok ()) (Except.ok ())
      (fun _ => Except.ok ()) (Except.ok ())
      (fun _ => Except.ok ⟨true, "", ""⟩) ≠
      Except.error HelmError.NoCaData :=
  (configure_invariant
    { url := "https://cluster.example", username := "u", password := "p",
      nspace := "ns", skip_tls_verify := none, ca_data := some "CA" }
    (Except.ok ()) (Except.ok ()) (Except.ok ())
    (fun _ => Except.ok ()) (Except.ok ())
    (fun _ => Except.ok ⟨true, "", ""⟩)).2 "CA" rfl

/-- C7: Helm::run, with the spawned process completing and the
try!-wrapped stderr diagnostics (the command echo, the two output
mirrors and the flush) succeeding, fails with `CmdFailed` carrying the
exact command text when the process exits non-zero, and returns the
captured stdout with surrounding whitespace trimmed when it exits
zero; a failing mirror write instead aborts with an io error before
either outcome. -/
theorem run_contract (cmd : String) (log : String → Except Unit Unit)
    (flush : Except Unit Unit) (exec : String → Except Unit ProcOutput)
    (output : ProcOutput) (hexec : exec cmd = Except.ok output)
    (hlog1 : log ("Running `" ++ cmd ++ "`.\n") = Except.ok ())
    (hlog2 : log output.stdout = Except.ok ())
    (hlog3 : log output.stderr = Except.ok ())
    (hflush : flush = Except.ok ()) :
    (output.status_success = false →
      Helm.run cmd log flush exec = Except.error (HelmError.CmdFailed cmd)) ∧
    (output.status_success = true →
      Helm.run cmd log flush exec = Except.ok (strTrim output.stdout)) ∧
    (∀ log2 : String → Except Unit Unit,
      log2 ("Running `" ++ cmd ++ "`.\n") = Except.error () →
      Helm.run cmd log2 flush exec = Except.error HelmError.Io) := by
  refine ⟨?_, ?_, ?_⟩
  · intro hs
    unfold Helm.run
    simp only [hlog1, hexec, hlog2, hlog3, hflush]
    simp [hs]
  · intro hs
    unfold Helm.run
    simp only [hlog1, hexec, hlog2, hlog3, hflush]
    simp [hs]
  · intro log2 hlog2f
    unfold Helm.run
    rw [hlog2f]

theorem run_contract_witness :
    Helm.run "helm repo update" (fun _ => Except.ok ()) (Except.ok ())
      (fun _ => Except.ok ⟨false, "out", "e1"⟩) =
      Except.error (HelmError.CmdFailed "helm repo update") ∧
    Helm.run "helm repo update" (fun _ => Except.ok ()) (Except.ok ())
      (fun _ => Except.ok ⟨true, " out \n", "e1"⟩) =
      Except.ok "out" ∧
    Helm.run "helm repo update" (fun _ => Except.error ()) (Except.ok ())
      (fun _ => Except.ok ⟨false, "out", "e1"⟩) =
      Except.error HelmError.Io := by
  refine ⟨?_, ?_, ?_⟩
  · exact (run_contract "helm repo update" (fun _ => Except.ok ()) (Except.ok ())
      (fun _ => Except.ok ⟨false, "out", "e1"⟩) ⟨false, "out", "e1"⟩
      rfl rfl rfl rfl rfl).1 rfl
  · have h := (run_contract "helm repo update" (fun _ => Except.ok ()) (Except.ok ())
      (fun _ => Except.ok ⟨true, " out \n", "e1"⟩) ⟨true, " out \n", "e1"⟩
      rfl rfl rfl rfl rfl).2.1 rfl
    rw [h]
    exact congrArg Except.ok (by decide)
  · exact (run_contract "helm repo update" (fun _ => Except.ok ()) (Except.ok ())
      (fun _ => Except.ok ⟨false, "out", "e1"⟩) ⟨false, "out", "e1"⟩
      rfl rfl rfl rfl rfl).2.2 (fun _ => Except.error ()) rfl

/-! ### Helper lemmas for the inventory reader -/

theorem Json.as_object_eq_some {j : Json} {o : JObj} :
    j.as_object = some o ↔ j = Json.obj o := by
  cases j <;> simp [Json.as_object]

theorem Json.as_str_eq_some {j : Json} {s : String} :
    j.as_str = some s ↔ j = Json.str s := by
  cases j <;> simp [Json.as_str]

theorem Json.as_array_eq_some {j : Json} {l : List Json} :
    j.as_array = some l ↔ j = Json.arr l := by
  cases j <;> simp [Json.as_array]

theorem listItems_append (nspace : String) (l1 l2 : List Json) :
    listItems nspace (l1 ++ l2) = listItems nspace l1 ++ listItems nspace l2 := by
  simp [listItems]

/-- Every chart in the chain's output arises from an item whose
metadata passed the namespace check and whose labels carry the
`"Tiller"` heritage marker. -/
theorem mem_listItems_provenance (nspace : String) (items : List Json)
    (c : Chart) (hc : c ∈ listItems nspace items) :
    ∃ metadata labels : JObj,
      namespaceMatches nspace metadata = true ∧
      jget metadata "labels" = some (Json.obj labels) ∧
      heritageMatches labels = true ∧
      chartOfLabels labels = some c := by
  unfold listItems at hc
  rw [List.mem_filterMap] at hc
  obtain ⟨labels, hlabels, hchart⟩ := hc
  rw [List.mem_filter] at hlabels
  obtain ⟨hlabels, hherit⟩ := hlabels
  rw [List.mem_filterMap] at hlabels
  obtain ⟨lv, hlv, hlvo⟩ := hlabels
  rw [List.mem_filterMap] at hlv
  obtain ⟨metadata, hmeta, hlget⟩ := hlv
  rw [List.mem_filter] at hmeta
  obtain ⟨hmeta, hns⟩ := hmeta
  rw [Json.as_object_eq_some] at hlvo
  rw [hlvo] at hlget
  exact ⟨metadata, labels, hns, hlget, hherit, hchart⟩

theorem mem_list_provenance (nspace : String) (deployments : JObj)
    (c : Chart) (hc : c ∈ Helm.list nspace deployments) :
    ∃ metadata labels : JObj,
      namespaceMatches nspace metadata = true ∧
      jget metadata "labels" = some (Json.obj labels) ∧
      heritageMatches labels = true ∧
      chartOfLabels labels = some c := by
  unfold Helm.list at hc
  cases hi : (jget deployments "items").bind Json.as_array with
  | none => rw [hi] at hc; simp at hc
  | some items =>
    rw [hi] at hc
    exact mem_listItems_provenance nspace items c hc

/-- A chart built by chartOfLabels always has a present version and an
absent overrides mapping. -/
theorem chartOfLabels_shape {labels : JObj} {c : Chart}
    (h : chartOfLabels labels = some c) :
    (∃ v, c.version = some v) ∧ c.overrides = none := by
  unfold chartOfLabels at h
  rw [Option.bind_eq_some] at h
  obtain ⟨release, hrel, h⟩ := h
  rw [Option.bind_eq_some] at h
  obtain ⟨cl, hcl, h⟩ := h
  rw [Option.map_eq_some'] at h
  obtain ⟨p, hsplit, hc⟩ := h
  rw [← hc]
  exact ⟨⟨p.2, rfl⟩, rfl⟩

theorem lastSplit_eq_none (sep : Char) (l : List Char) :
    lastSplit sep l = none ↔ sep ∉ l := by
  induction l with
  | nil => simp [lastSplit]
  | cons c rest ih =>
    simp only [lastSplit]
    cases hrec : lastSplit sep rest with
    | some p =>
      dsimp only
      constructor
      · intro h
        exact absurd h (by simp)
      · intro h
        exact absurd (ih.mpr (fun hm => h (List.mem_cons_of_mem c hm)))
          (by simp [hrec])
    | none =>
      dsimp only
      by_cases hc : (c == sep) = true
      · rw [if_pos hc]
        have hcs : c = sep := by simpa using hc
        subst hcs
        simp
      · rw [if_neg hc]
        have hneq : c ≠ sep := by simpa using hc
        have h1 : sep ∉ rest := ih.mp hrec
        constructor
        · intro _
          intro hmem
          rcases List.mem_cons.mp hmem with h | h
          · exact hneq h.symm
          · exact h1 h
        · intro _
          rfl

theorem lastSplit_eq_some (sep : Char) (l pre post : List Char) :
    lastSplit sep l = some (pre, post) ↔
      (l = pre ++ sep :: post ∧ sep ∉ post) := by
  induction l generalizing pre post with
  | nil => cases pre <;> simp [lastSplit]
  | cons c rest ih =>
    simp only [lastSplit]
    cases hrec : lastSplit sep rest with
    | some p =>
      obtain ⟨p1, p2⟩ := p
      dsimp only
      have hrest := (ih p1 p2).mp hrec
      constructor
      · intro h
        injection h with hpair
        injection hpair with h1 h2
        rw [← h1, ← h2]
        constructor
        · rw [List.cons_append, ← hrest.1]
        · exact hrest.2
      · rintro ⟨hl, hpost⟩
        cases pre with
        | nil =>
          rw [List.nil_append] at hl
          injection hl with hc hr
          exfalso
          apply hpost
          rw [← hr] at *
          rw [hrest.1]
          exact List.mem_append_right p1 (List.mem_cons_self sep p2)
        | cons pc ptl =>
          rw [List.cons_append] at hl
          injection hl with hc hr
          have hthis := (ih ptl post).mpr ⟨hr, hpost⟩
          rw [hthis] at hrec
          injection hrec with hpair
          injection hpair with h1 h2
          rw [hc, h1, h2]
    | none =>
      dsimp only
      have hnone : sep ∉ rest := (lastSplit_eq_none sep rest).mp hrec
      by_cases hc : (c == sep) = true
      · rw [if_pos hc]
        have hcs : c = sep := by simpa using hc
        subst hcs
        constructor
        · intro h
          injection h with hpair
          injection hpair with h1 h2
          rw [← h1, ← h2]
          exact ⟨rfl, hnone⟩
        · rintro ⟨hl, hpost⟩
          cases pre with
          | nil =>
            rw [List.nil_append] at hl
            injection hl with _ hr
            rw [hr]
          | cons pc ptl =>
            rw [List.cons_append] at hl
            injection hl with hceq hr
            exfalso
            apply hnone
            rw [hr]
            exact List.mem_append_right ptl (List.mem_cons_self c post)
      · rw [if_neg hc]
        have hneq : c ≠ sep := by simpa using hc
        constructor
        · intro h
          exact absurd h (by simp)
        · rintro ⟨hl, hpost⟩
          exfalso
          cases pre with
          | nil =>
            rw [List.nil_append] at hl
            injection hl with hceq hr
            exact hneq hceq
          | cons pc ptl =>
            rw [List.cons_append] at hl
            injection hl with hceq hr
            apply hnone
            rw [hr]
            exact List.mem_append_right ptl (List.mem_cons_self sep post)

theorem splitChart_eq_some (c n v : String) :
    splitChart c = some (n, v) ↔
      (c.data = n.data ++ '-' :: v.data ∧ '-' ∉ v.data) := by
  unfold splitChart
  constructor
  · intro h
    rw [Option.map_eq_some'] at h
    obtain ⟨⟨p1, p2⟩, hls, hmk⟩ := h
    injection hmk with h1 h2
    rw [← h1, ← h2]
    exact (lastSplit_eq_some '-' c.data p1 p2).mp hls
  · rintro ⟨hl, hpost⟩
    rw [Option.map_eq_some']
    refine ⟨(n.data, v.data), (lastSplit_eq_some '-' c.data n.data v.data).mpr
      ⟨hl, hpost⟩, ?_⟩
    show (String.mk n.data, String.mk v.data) = (n, v)
    cases n
    cases v
    rfl

theorem list_single_item (nspace : String) (labels : JObj)
    (hherit : heritageMatches labels = true) :
    Helm.list nspace (singleItemPayload (itemWithLabels nspace labels)) =
      (chartOfLabels labels).toList := by
  show listItems nspace [itemWithLabels nspace labels] = _
  unfold listItems itemWithLabels
  simp [jget, Json.as_object, Json.as_str, namespaceMatches, hherit]
  cases hco : chartOfLabels labels <;> simp [hco]

/-! ### C3: the chart-label split -/

/-- C3: inventory reconstruction splits the chart label on its last
hyphen only (name = everything before the final hyphen, version = the
suffix after it), as on the two spec examples; a labels object whose
chart label has no hyphen, or which lacks the release or chart label,
produces no chart and is dropped silently: reconstruction still
returns (with the other filters passing) the empty inventory rather
than an error. -/
theorem list_splits_chart_label_on_last_hyphen (nspace : String) :
    (∀ c n v : String, splitChart c = some (n, v) ↔
      (c.data = n.data ++ '-' :: v.data ∧ '-' ∉ v.data)) ∧
    splitChart "mychart-1.2.3" = some ("mychart", "1.2.3") ∧
    splitChart "my-chart-name-2.0.0" = some ("my-chart-name", "2.0.0") ∧
    (∀ labels : JObj, ∀ release cl n v : String,
      jget labels "release" = some (Json.str release) →
      jget labels "chart" = some (Json.str cl) →
      splitChart cl = some (n, v) →
      chartOfLabels labels = some
        { release := release, name := n, version := some v, overrides := none }) ∧
    (∀ labels : JObj, jget labels "release" = none →
      chartOfLabels labels = none) ∧
    (∀ labels : JObj, jget labels "chart" = none →
      chartOfLabels labels = none) ∧
    (∀ labels : JObj, ∀ cl : String,
      jget labels "chart" = some (Json.str cl) → splitChart cl = none →
      chartOfLabels labels = none) ∧
    (∀ labels : JObj, heritageMatches labels = true → chartOfLabels labels = none →
      Helm.list nspace (singleItemPayload (itemWithLabels nspace labels)) = []) := by
  refine ⟨splitChart_eq_some, by decide, by decide, ?_, ?_, ?_, ?_, ?_⟩
  · intro labels release cl n v hrel hcl hsplit
    simp [chartOfLabels, hrel, hcl, hsplit, Json.as_str]
  · intro labels hrel
    simp [chartOfLabels, hrel]
  · intro labels hcl
    cases hrel : (jget labels "release").bind Json.as_str <;>
      simp [chartOfLabels, hrel, hcl]
  · intro labels cl hcl hsplit
    cases hrel : (jget labels "release").bind Json.as_str <;>
      simp [chartOfLabels, hrel, hcl, hsplit, Json.as_str]
  · intro labels hherit hnone
    rw [list_single_item nspace labels hherit, hnone]
    rfl

theorem list_splits_chart_label_on_last_hyphen_witness :
    splitChart "my-chart-name-2.0.0" = some ("my-chart-name", "2.0.0") ∧
    chartOfLabels [("heritage", Json.str "Tiller"), ("release", Json.str "r"),
      ("chart", Json.str "mychart-1.2.3")] = some
      { release := "r", name := "mychart", version := some "1.2.3",
        overrides := none } ∧
    chartOfLabels [("heritage", Json.str "Tiller"), ("release", Json.str "r"),
      ("chart", Json.str "nohyphen")] = none ∧
    Helm.list "ns" (singleItemPayload (itemWithLabels "ns"
      [("heritage", Json.str "Tiller"), ("release", Json.str "r"),
       ("chart", Json.str "nohyphen")])) = [] := by
  refine ⟨?_, ?_, ?_, ?_⟩
  · exact ((list_splits_chart_label_on_last_hyphen "ns").1
      "my-chart-name-2.0.0" "my-chart-name" "2.0.0").mpr (by decide)
  · exact (list_splits_chart_label_on_last_hyphen "ns").2.2.2.1
      _ "r" "mychart-1.2.3" "mychart" "1.2.3" rfl rfl (by decide)
  · exact (list_splits_chart_label_on_last_hyphen "ns").2.2.2.2.2.2.1
      _ "nohyphen" rfl (by decide)
  · exact (list_splits_chart_label_on_last_hyphen "ns").2.2.2.2.2.2.2
      _ rfl ((list_splits_chart_label_on_last_hyphen "ns").2.2.2.2.2.2.1
        _ "nohyphen" rfl (by decide))

/-! ### C6 and C4: defensive reads and the item filters -/

/-- C6: for every JSON-object response, an absent or non-array `items`
field makes inventory reconstruction return the empty inventory (the
reconstruction is a total function: no error is possible). -/
theorem list_defensive_items (nspace : String) (deployments : JObj)
    (h : jget deployments "items" = none ∨
      ∃ j : Json, jget deployments "items" = some j ∧ j.as_array = none) :
    Helm.list nspace deployments = [] := by
  unfold Helm.list
  rcases h with h | ⟨j, hj, hja⟩
  · rw [h]
    rfl
  · rw [hj]
    show (match j.as_array with
          | none => []
          | some items => listItems nspace items) = []
    rw [hja]

theorem list_defensive_items_witness :
    Helm.list "ns" [("items", Json.str "notanarray")] = [] ∧
    Helm.list "ns" [("other", Json.null)] = [] :=
  ⟨list_defensive_items "ns" _ (Or.inr ⟨Json.str "notanarray", rfl, rfl⟩),
   list_defensive_items "ns" _ (Or.inl rfl)⟩

theorem listItems_drop_bad (nspace : String) (bad : Json)
    (h : (∃ metadata : JObj, itemMetadata bad = some metadata ∧
            namespaceMatches nspace metadata = false) ∨
         (∃ labels : JObj, itemLabels bad = some labels ∧
            heritageMatches labels = false)) :
    listItems nspace [bad] = [] := by
  rcases h with ⟨metadata, hmeta, hns⟩ | ⟨labels, hlab, hherit⟩
  · unfold itemMetadata at hmeta
    rw [Option.bind_eq_some] at hmeta
    obtain ⟨mv, hmv, hmvo⟩ := hmeta
    rw [Option.bind_eq_some] at hmv
    obtain ⟨o, ho, hometa⟩ := hmv
    rw [Json.as_object_eq_some] at ho hmvo
    subst ho
    subst hmvo
    unfold listItems
    simp [Json.as_object, hometa, hns]
  · unfold itemLabels at hlab
    rw [Option.bind_eq_some] at hlab
    obtain ⟨lv, hlv, hlvo⟩ := hlab
    rw [Option.bind_eq_some] at hlv
    obtain ⟨metadata, hmeta, hlget⟩ := hlv
    unfold itemMetadata at hmeta
    rw [Option.bind_eq_some] at hmeta
    obtain ⟨mv, hmv, hmvo⟩ := hmeta
    rw [Option.bind_eq_some] at hmv
    obtain ⟨o, ho, hometa⟩ := hmv
    rw [Json.as_object_eq_some] at ho hmvo hlvo
    subst ho
    subst hmvo
    subst hlvo
    by_cases hns : namespaceMatches nspace metadata = true
    · unfold listItems
      simp [Json.as_object, hometa, hns, hlget, hherit]
    · have hns' : namespaceMatches nspace metadata = false := by
        revert hns
        cases namespaceMatches nspace metadata <;> simp
      unfold listItems
      simp [Json.as_object, hometa, hns']

/-- C4: for any response payload, a chart appears in the reconstructed
inventory only via an item whose metadata passed the namespace check
and whose labels carry heritage `"Tiller"`; and an item failing either
check is dropped silently: removing it from the `items` array leaves
the reconstructed inventory unchanged (no error in either case). -/
theorem list_requires_namespace_and_tiller (nspace : String) :
    (∀ deployments : JObj, ∀ c : Chart, c ∈ Helm.list nspace deployments →
      ∃ metadata labels : JObj,
        namespaceMatches nspace metadata = true ∧
        jget metadata "labels" = some (Json.obj labels) ∧
        heritageMatches labels = true ∧
        chartOfLabels labels = some c) ∧
    (∀ items1 items2 : List Json, ∀ bad : Json,
      ((∃ metadata : JObj, itemMetadata bad = some metadata ∧
          namespaceMatches nspace metadata = false) ∨
       (∃ labels : JObj, itemLabels bad = some labels ∧
          heritageMatches labels = false)) →
      Helm.list nspace [("items", Json.arr (items1 ++ bad :: items2))] =
        Helm.list nspace [("items", Json.arr (items1 ++ items2))]) := by
  constructor
  · exact fun deployments c hc => mem_list_provenance nspace deployments c hc
  · intro items1 items2 bad hbad
    show listItems nspace (items1 ++ bad :: items2) =
      listItems nspace (items1 ++ items2)
    rw [listItems_append nspace items1 (bad :: items2),
        listItems_append nspace items1 items2]
    have h2 : listItems nspace (bad :: items2) =
        listItems nspace [bad] ++ listItems nspace items2 :=
      listItems_append nspace [bad] items2
    rw [h2, listItems_drop_bad nspace bad hbad, List.nil_append]

theorem list_requires_namespace_and_tiller_witness :
    Helm.list "ns" [("items", Json.arr [Json.obj [("metadata", Json.obj
      [("namespace", Json.str "other")])]])] =
      Helm.list "ns" [("items", Json.arr [])] ∧
    Helm.list "ns" [("items", Json.arr [Json.obj [("metadata", Json.obj
      [("namespace", Json.str "ns"), ("labels", Json.obj
        [("heritage", Json.str "NotTiller")])])]])] =
      Helm.list "ns" [("items", Json.arr [])] :=
  ⟨(list_requires_namespace_and_tiller "ns").2 [] [] _
    (Or.inl ⟨[("namespace", Json.str "other")], rfl, rfl⟩),
   (list_requires_namespace_and_tiller "ns").2 [] [] _
    (Or.inr ⟨[("heritage", Json.str "NotTiller")], rfl, rfl⟩)⟩

/-! ### C10: shape of reconstructed charts -/

/-- C10: every Chart produced by inventory reconstruction has its
version present (possibly the empty string, as when the chart label
ends in a hyphen) and its overrides absent. -/
theorem list_version_some_overrides_none :
    (∀ nspace : String, ∀ deployments : JObj, ∀ c : Chart,
      c ∈ Helm.list nspace deployments →
      (∃ v, c.version = some v) ∧ c.overrides = none) ∧
    Helm.list "ns" (singleItemPayload (itemWithLabels "ns"
      [("heritage", Json.str "Tiller"), ("release", Json.str "r"),
       ("chart", Json.str "abc-")])) =
      [{ release := "r", name := "abc", version := some "",
         overrides := none }] := by
  constructor
  · intro nspace deployments c hc
    obtain ⟨metadata, labels, _, _, _, hco⟩ :=
      mem_list_provenance nspace deployments c hc
    exact chartOfLabels_shape hco
  · rfl

theorem list_version_some_overrides_none_witness :
    (∃ v, (Chart.mk "r" "abc" (some "") none).version = some v) ∧
    (Chart.mk "r" "abc" (some "") none).overrides = none := by
  have hmem : Chart.mk "r" "abc" (some "") none ∈
      Helm.list "ns" (singleItemPayload (itemWithLabels "ns"
        [("heritage", Json.str "Tiller"), ("release", Json.str "r"),
         ("chart", Json.str "abc-")])) := by
    rw [list_version_some_overrides_none.2]
    exact List.mem_singleton.mpr rfl
  exact list_version_some_overrides_none.1 "ns" _ _ hmem

/-! ### C5: kube_api failure modes -/

/-- C5 (claim refuted by the code): a curl transfer failure is indeed
returned as the network error, but a response body that does not parse
as a JSON object does not produce a returned error: the parse-failure
arm panics (the placeholder macro at lib.rs line 177), so no error
value of any kind is returned there. -/
theorem kube_api_failure_modes :
    (∀ parse : List Nat → Option JObj,
      Helm.kube_api (Except.error ()) parse = ApiOutcome.err HelmError.Curl) ∧
    Helm.kube_api (Except.ok (strBytes "hello")) (fun _ => none) =
      ApiOutcome.panicked ∧
    (∀ e : HelmError,
      Helm.kube_api (Except.ok (strBytes "hello")) (fun _ => none) ≠
        ApiOutcome.err e) := by
  refine ⟨fun parse => rfl, rfl, fun e h => ?_⟩
  rw [show Helm.kube_api (Except.ok (strBytes "hello")) (fun _ => none) =
    ApiOutcome.panicked from rfl] at h
  exact ApiOutcome.noConfusion h

/-! ### C9: the values-artifact lifecycle in Helm::upgrade -/

/-- C9 counterexample: it is not true that whenever `chart.overrides`
is set and the upgrade command run succeeds, the temporary values
artifact has been released afterwards: on the success path the code
calls Temp::release, which relinquishes ownership, so the artifact is
NOT removed. -/
theorem upgrade_release_claim_false :
    ¬ (∀ (nspace : String) (chart : Chart) (mkTemp : Except Unit String)
        (createFile fileFlush : Except Unit Unit)
        (ser : List (String × Json) → Except Unit String)
        (log : String → Except Unit Unit) (flush : Except Unit Unit)
        (exec : String → Except Unit ProcOutput),
        chart.overrides.isSome = true →
        (Helm.upgrade nspace chart mkTemp createFile fileFlush ser
          log flush exec).result = Except.ok () →
        (Helm.upgrade nspace chart mkTemp createFile fileFlush ser
          log flush exec).tempRemoved = true) := by
  intro hclaim
  have h := hclaim "ns"
    { release := "r", name := "app", version := none, overrides := some [] }
    (Except.ok "/tmp/values") (Except.ok ()) (Except.ok ())
    (fun _ => Except.ok "a: 1") (fun _ => Except.ok ()) (Except.ok ())
    (fun _ => Except.ok ⟨true, "", ""⟩) rfl rfl
  exact absurd h (by decide)

/-- C9 as amended: when `chart.overrides` is set, every error exit
after the temporary values artifact was created (a file-creation
failure, a serialization failure before the command runs, or a failing
command) removes the artifact via its scope-exit drop; when the
command succeeds, Temp::release is called on it, relinquishing
ownership, so the artifact is not removed. -/
theorem upgrade_values_artifact_lifecycle (nspace : String) (chart : Chart)
    (ov : List (String × Json)) (hov : chart.overrides = some ov)
    (mkTemp : Except Unit String) (createFile fileFlush : Except Unit Unit)
    (ser : List (String × Json) → Except Unit String)
    (log : String → Except Unit Unit) (flush : Except Unit Unit)
    (exec : String → Except Unit ProcOutput) :
    (∀ e : HelmError,
      (Helm.upgrade nspace chart mkTemp createFile fileFlush ser
        log flush exec).result = Except.error e →
      (Helm.upgrade nspace chart mkTemp createFile fileFlush ser
        log flush exec).tempCreated = true →
      (Helm.upgrade nspace chart mkTemp createFile fileFlush ser
        log flush exec).tempRemoved = true ∧
      (Helm.upgrade nspace chart mkTemp createFile fileFlush ser
        log flush exec).releaseCalled = false) ∧
    ((Helm.upgrade nspace chart mkTemp createFile fileFlush ser
        log flush exec).result = Except.ok () →
      (Helm.upgrade nspace chart mkTemp createFile fileFlush ser
        log flush exec).tempCreated = true ∧
      (Helm.upgrade nspace chart mkTemp createFile fileFlush ser
        log flush exec).tempRemoved = false ∧
      (Helm.upgrade nspace chart mkTemp createFile fileFlush ser
        log flush exec).releaseCalled = true) := by
  simp only [Helm.upgrade, hov]
  split
  · simp
  · split
    · simp
    · split
      · simp
      · split
        · simp
        · split
          · simp
          · split <;> simp

theorem upgrade_values_artifact_lifecycle_witness :
    ((Helm.upgrade "ns"
        { release := "r", name := "app", version := none, overrides := some [] }
        (Except.ok "/tmp/v") (Except.ok ()) (Except.ok ())
        (fun _ => Except.error ()) (fun _ => Except.ok ()) (Except.ok ())
        (fun _ => Except.ok ⟨true, "", ""⟩)).tempRemoved = true ∧
      (Helm.upgrade "ns"
        { release := "r", name := "app", version := none, overrides := some [] }
        (Except.ok "/tmp/v") (Except.ok ()) (Except.ok ())
        (fun _ => Except.error ()) (fun _ => Except.ok ()) (Except.ok ())
        (fun _ => Except.ok ⟨true, "", ""⟩)).releaseCalled = false) ∧
    ((Helm.upgrade "ns"
        { release := "r", name := "app", version := none, overrides := some [] }
        (Except.ok "/tmp/v") (Except.ok ()) (Except.ok ())
        (fun _ => Except.ok "a: 1") (fun _ => Except.ok ()) (Except.ok ())
        (fun _ => Except.ok ⟨true, "", ""⟩)).tempCreated = true ∧
      (Helm.upgrade "ns"
        { release := "r", name := "app", version := none, overrides := some [] }
        (Except.ok "/tmp/v") (Except.ok ()) (Except.ok ())
        (fun _ => Except.ok "a: 1") (fun _ => Except.ok ()) (Except.ok ())
        (fun _ => Except.ok ⟨true, "", ""⟩)).tempRemoved = false ∧
      (Helm.upgrade "ns"
        { release := "r", name := "app", version := none, overrides := some [] }
        (Except.ok "/tmp/v") (Except.ok ()) (Except.ok ())
        (fun _ => Except.ok "a: 1") (fun _ => Except.ok ()) (Except.ok ())
        (fun _ => Except.ok ⟨true, "", ""⟩)).releaseCalled = true) :=
  ⟨(upgrade_values_artifact_lifecycle "ns"
      { release := "r", name := "app", version := none, overrides := some [] }
      [] rfl (Except.ok "/tmp/v") (Except.ok ()) (Except.ok ())
      (fun _ => Except.error ()) (fun _ => Except.ok ()) (Except.ok ())
      (fun _ => Except.ok ⟨true, "", ""⟩)).1 HelmError.Yaml rfl rfl,
   (upgrade_values_artifact_lifecycle "ns"
      { release := "r", name := "app", version := none, overrides := some [] }
      [] rfl (Except.ok "/tmp/v") (Except.ok ()) (Except.ok ())
      (fun _ => Except.ok "a: 1") (fun _ => Except.ok ()) (Except.ok ())
      (fun _ => Except.ok ⟨true, "", ""⟩)).2 rfl⟩
